import Mathlib

/-!
Verification of the klogproc position-tracking pipeline.

Shallow embedding of the Go sources: the tail worklog (ledger) of
`load/tail/worklog.go`, the mapka3 transformer's `Preprocess`, the tail
processor's `OnEntry`, and the kontext018 `InputRecord` time accessors.
Machine integers (int64) are modelled as `Int` (no arithmetic in the
embedded code can overflow 64 bits on the inputs considered), Go maps as
functions into `Option`, channels and goroutines as explicit sequences of
the requests they carry, and filesystem I/O as explicit state or as input
parameters.
-/

/-- Embeds `servicelog.LogRange` (fields as used in `load/tail/worklog.go`):
`Inode int64`, `SeekStart int64`, `SeekEnd int64`, `Written bool`. -/
structure LogRange where
  inode : Int
  seekStart : Int
  seekEnd : Int
  written : Bool
  deriving DecidableEq, Repr

/-- Go zero value of `servicelog.LogRange`, what
`collections.ConcurrentMap.Get` yields for a missing key
(Go map-access zero-value semantics). -/
def LogRange.zero : LogRange := ⟨0, 0, 0, false⟩

/-- Embeds `updateRequest` of `load/tail/worklog.go`. -/
structure UpdateRequest where
  filePath : String
  value : LogRange
  deriving DecidableEq, Repr

/-- The worklog's map `rec` (string → LogRange), `none` for a key never set. -/
abbrev Ledger := String → Option LogRange

/-- Embeds `w.rec.Get(path)`: the stored value, or the Go zero value for a
missing key. -/
def ledgerGet (led : Ledger) (p : String) : LogRange :=
  (led p).getD LogRange.zero

/-- Embeds the acceptance condition of `Worklog.goReadRequests`
(worklog.go lines 155-163): the candidate `cand` replaces the current
entry `curr` iff this boolean disjunction holds. -/
def acceptUpdate (curr cand : LogRange) : Bool :=
  decide (curr.inode ≠ cand.inode) ||
  (!curr.written && decide (curr.seekStart ≥ cand.seekStart)) ||
  (curr.written && decide (cand.seekEnd ≥ curr.seekEnd)) ||
  (!cand.written && (curr.written || decide (cand.seekEnd < curr.seekEnd)))

/-- One reconciliation step of `Worklog.goReadRequests` on a single entry:
the stored value after processing candidate `cand` against current `curr`. -/
def reconcileStep (curr cand : LogRange) : LogRange :=
  if acceptUpdate curr cand then cand else curr

/-- Embeds processing of one `updateRequest` by `Worklog.goReadRequests`:
`curr := w.rec.Get(req.FilePath)`; if the acceptance condition holds,
`w.rec.Set(req.FilePath, req.Value)`. -/
def applyUpdate (led : Ledger) (req : UpdateRequest) : Ledger :=
  let curr := ledgerGet led req.filePath
  if acceptUpdate curr req.value then
    fun p => if p = req.filePath then some req.value else led p
  else led

/-- The ledger after a finite sequence of update requests is processed in
arrival order by the single reader goroutine. -/
def applyUpdates (led : Ledger) (reqs : List UpdateRequest) : Ledger :=
  reqs.foldl applyUpdate led

/-- Embeds `Worklog.GetData` (worklog.go lines 252-258): the stored range,
or the sentinel `{Inode: -1, SeekStart: 0, SeekEnd: 0}` (Written zero-valued
to false) when the path was never recorded. -/
def Worklog.GetData (led : Ledger) (p : String) : LogRange :=
  match led p with
  | some v => v
  | none => ⟨-1, 0, 0, false⟩

/-- Spec-side reconciliation: the 5 ordered rules of spec §4.1, written
from the spec's words (to be compared with `reconcileStep`, which is
written from the source). -/
def specReconcile (curr cand : LogRange) : LogRange :=
  if cand.inode ≠ curr.inode then cand
  else if curr.written = false ∧ curr.seekStart ≥ cand.seekStart then cand
  else if curr.written = true ∧ cand.seekEnd ≥ curr.seekEnd then cand
  else if cand.written = false ∧ (curr.written = true ∨ cand.seekEnd < curr.seekEnd) then cand
  else curr

/-- Embeds `Worklog.ResetFile` (worklog.go lines 234-249). The filesystem
stat `fsop.GetFileProps` (code not under src/) is external input, passed in
as `statResult`; the function returns the inode handed back to the caller,
the error if any, and the update request sent on `w.updRequests`. -/
structure ResetFileResult where
  ret : Int
  err : Option String
  enqueued : List UpdateRequest
  deriving DecidableEq, Repr

/-- Embeds `Worklog.ResetFile`: on stat failure return `(-1, err)` and
enqueue nothing; on success enqueue a zero range with `Written: true` for
the stat's inode and return that inode. -/
def Worklog.ResetFile (filePath : String) (statResult : Except String Int) : ResetFileResult :=
  match statResult with
  | .error e => ⟨-1, some e, []⟩
  | .ok inode => ⟨inode, none, [⟨filePath, ⟨inode, 0, 0, true⟩⟩]⟩

/-- The two files `Worklog.save` touches: the primary store file
(`storeFilePath`) and its backup (`backupFilePath`). -/
inductive WFile where
  | primary
  | backup
  deriving DecidableEq, Repr

/-- The filesystem operations `Worklog.save` performs, in program order:
`os.OpenFile(..., O_CREATE|O_RDWR|O_TRUNC, ...)` creates/truncates,
`io.Copy(dst, src)` appends the whole source to the destination,
`f.Write(data)` appends `data`. -/
inductive FsOp where
  | openTrunc (f : WFile)
  | copyTo (dst src : WFile)
  | writeData (f : WFile) (data : String)
  deriving DecidableEq, Repr

/-- Contents of the two files touched by `Worklog.save`; `none` means the
file does not exist. -/
structure FsState where
  primary : Option String
  backup : Option String
  deriving DecidableEq, Repr

def FsState.read (fs : FsState) (f : WFile) : Option String :=
  match f with
  | .primary => fs.primary
  | .backup => fs.backup

def FsState.put (fs : FsState) (f : WFile) (c : String) : FsState :=
  match f with
  | .primary => ⟨some c, fs.backup⟩
  | .backup => ⟨fs.primary, some c⟩

def FsState.applyOp (fs : FsState) : FsOp → FsState
  | .openTrunc f => fs.put f ""
  | .copyTo dst src => fs.put dst (((fs.read dst).getD "") ++ ((fs.read src).getD ""))
  | .writeData f data => fs.put f (((fs.read f).getD "") ++ data)

def FsState.run (fs : FsState) (ops : List FsOp) : FsState :=
  ops.foldl FsState.applyOp fs

/-- Embeds `Worklog.save` (worklog.go lines 184-221) as the sequence of
filesystem operations it performs in order: when `fs.IsFile(storeFilePath)`
holds, first truncate/create the backup and copy the primary's current
content into it, then truncate/create the primary and write the serialized
map `data` (`json.Marshal(w.rec)`, abstracted as the string `data`).
I/O errors and file closing are elided (the error-free execution). -/
def Worklog.saveOps (primaryExists : Bool) (data : String) : List FsOp :=
  (if primaryExists then [.openTrunc .backup, .copyTo .backup .primary] else []) ++
  [.openTrunc .primary, .writeData .primary data]

/-- The filesystem state after one complete `Worklog.save`. -/
def Worklog.save (fs : FsState) (data : String) : FsState :=
  fs.run (Worklog.saveOps fs.primary.isSome data)

/-- Embeds the `Worklog` struct state relevant to `Init`/`Close`: the
configured store path, the `initialized` flag, and the map `rec`
(channel `updRequests` and the background goroutines are elided; the
requests they process are modelled by `applyUpdates`). The Go field `rec`
is renamed `recMap` (`rec` collides with the structure's recursor). -/
structure Worklog where
  storeFilePath : String
  initialized : Bool
  recMap : Ledger

/-- Inputs `Worklog.Init` obtains from the filesystem and the JSON decoder
(`fs.IsFile`, `os.ReadFile`, `collections.NewConcurrentMapFromJSON`; the
latter two are code not under src/, passed in as results). -/
structure FsView where
  isFile : Except String Bool
  fileData : Except String String
  parsedMap : Except String Ledger

/-- Possible outcomes of `Worklog.Init`: a Go panic, an error return, or
the updated receiver state. -/
inductive InitResult where
  | panicked (msg : String)
  | failed (msg : String)
  | ok (w : Worklog)

/-- Embeds `Worklog.Init` (worklog.go lines 65-98): panic when already
initialized; error when no store path is configured or a filesystem/decode
step fails; otherwise load the persisted map when the store file exists and
is non-empty, and set `initialized`. Channel creation and the autosave and
request-reader goroutines are elided. -/
def Worklog.Init (w : Worklog) (fs : FsView) : InitResult :=
  if w.initialized then .panicked "Worklog already initialized"
  else if w.storeFilePath = "" then
    .failed "failed to initialize tail worklog - no path specified"
  else
    match fs.isFile with
    | .error e => .failed e
    | .ok isf =>
      if isf then
        match fs.fileData with
        | .error e => .failed e
        | .ok data =>
          if data.length > 0 then
            match fs.parsedMap with
            | .error e => .failed e
            | .ok m => .ok { w with recMap := m, initialized := true }
          else .ok { w with initialized := true }
      else .ok { w with initialized := true }

/-- Embeds `Worklog.Close` (worklog.go lines 173-179): resets the
`initialized` flag (the save and the channel close are elided; they do not
touch the flag). -/
def Worklog.Close (w : Worklog) : Worklog :=
  { w with initialized := false }

/-- Record data the mapka3 `Transformer.Preprocess` reads from a
`servicelog.InputRecord`: its time (`GetTime`, in seconds, matching the
`AnalysisIntervalSecs`-second interval it is compared against) and its
clustering key (`ClusteringClientID`). -/
structure PRec where
  time : Int
  clusteringID : String
  deriving DecidableEq, Repr

/-- State of the `servicelog.ServiceLogBuffer` as the mapka3 `Preprocess`
observes and mutates it: per-key last-check time (`GetLastCheck`, zero
value 0 when never checked) and per-key retained records in `ForEach`
order (oldest to newest). -/
structure LogBuffer where
  lastCheck : String → Int
  retained : String → List PRec

/-- Modelled from the spec: `RemoveAnalyzedRecords(key, upTo)` of the log
buffer (code not under src/) "evicts records at or before a timestamp once
analysis has consumed them" (spec §4.3). -/
def LogBuffer.removeAnalyzedRecords (buf : LogBuffer) (key : String) (upTo : Int) : LogBuffer :=
  { buf with retained := fun k =>
      if k = key then (buf.retained k).filter (fun it => decide (upTo < it.time))
      else buf.retained k }

/-- Modelled from the spec: `ConfirmRecordCheck(rec)` of the log buffer
(code not under src/) "stamps the last checked marker for the key to the
record's time" (spec §4.3). -/
def LogBuffer.confirmRecordCheck (buf : LogBuffer) (rec : PRec) : LogBuffer :=
  { buf with lastCheck := fun k =>
      if k = rec.clusteringID then rec.time else buf.lastCheck k }

/-- Embeds mapka3 `Transformer.Preprocess` (conversion/mapka3, src/unnamed
part 001 lines 198-233). `analyze` stands for `clustering.Analyze`
(code not under src/) applied with the configured `MinDensity`/`Epsilon`;
`analysisIntervalSecs` is `t.bufferConf.AnalysisIntervalSecs`, and the
comparison `rec.GetTime().Sub(lastCheck) > ci` is `rec.time - lastCheck >
analysisIntervalSecs` with times in seconds. Returns the emitted records
and the buffer state after the call. -/
def Mapka3.Preprocess (analyze : List PRec → List PRec) (analysisIntervalSecs : Int)
    (buf : LogBuffer) (rec : PRec) : List PRec × LogBuffer :=
  let clusteringID := rec.clusteringID
  let lastCheck := buf.lastCheck clusteringID
  if rec.time - lastCheck > analysisIntervalSecs then
    let items := buf.retained clusteringID
    if items.length > 0 then
      let clustered := analyze items
      if clustered.length > 0 then
        (clustered,
          (buf.removeAnalyzedRecords clusteringID rec.time).confirmRecordCheck rec)
      else ([rec], buf)
    else ([rec], buf)
  else ([rec], buf)

/-- Embeds `save.IgnoredItemMsg` as sent by `tailProcessor.OnEntry`: the
originating file path and the line's byte range. -/
structure IgnoredItemMsg where
  filePath : String
  filePos : LogRange
  deriving DecidableEq, Repr

/-- Embeds `servicelog.BoundOutputRecord` as sent to the Elastic channel:
the output record (abstracted as `Nat`), bound to its file path and byte
range. The Go field `Rec` is renamed `outRec` (`rec` collides with the
structure's recursor). -/
structure BoundOutputRecord where
  filePath : String
  outRec : Nat
  filePos : LogRange
  deriving DecidableEq, Repr

/-- Messages `tailProcessor.OnEntry` emits for one line: the records sent
on `dataWriter.Elastic` and the messages sent on `dataWriter.Ignored`, in
channel order. -/
structure OnEntryOut where
  elastic : List BoundOutputRecord
  ignored : List IgnoredItemMsg
  deriving DecidableEq, Repr

/-- Embeds the `for _, precord := range prepInp` loop of
`tailProcessor.OnEntry`: each preprocessed record is transformed; on a
transform error one ignored message is emitted and the function returns
(abandoning the remaining records); otherwise the bound output record is
emitted. `logBuffer.AddRecord`, geo enrichment (`applyLocation`, which
only annotates the output record) and the health-check ping are elided:
they emit nothing on the two channels. -/
def emitPreprocessed (transform : Nat → Except String Nat)
    (filePath : String) (logPosition : LogRange) : List Nat → OnEntryOut
  | [] => ⟨[], []⟩
  | precord :: rest =>
    match transform precord with
    | .error _ => ⟨[], [⟨filePath, logPosition⟩]⟩
    | .ok outRec =>
      let out := emitPreprocessed transform filePath logPosition rest
      ⟨⟨filePath, outRec, logPosition⟩ :: out.elastic, out.ignored⟩

/-- Embeds `tailProcessor.OnEntry` (src/unnamed part 004 lines 115-166).
The external collaborators are parameters: `parseLine` is
`tp.lineParser.ParseLine(item, -1)`, `isProcessable` the record's
`IsProcessable()`, `preprocess` is `tp.logTransformer.Preprocess` (its
buffer side effects elided: they emit nothing), `transform` is
`tp.logTransformer.Transform`. Input records and output records are
abstracted as `Nat`. The function always returns (no error propagates);
its value is what the line put on the two channels. -/
def OnEntry (parseLine : String → Except String Nat) (isProcessable : Nat → Bool)
    (preprocess : Nat → Except String (List Nat)) (transform : Nat → Except String Nat)
    (filePath : String) (item : String) (logPosition : LogRange) : OnEntryOut :=
  match parseLine item with
  | .error _ => ⟨[], [⟨filePath, logPosition⟩]⟩
  | .ok parsed =>
    if isProcessable parsed then
      match preprocess parsed with
      | .error _ => ⟨[], [⟨filePath, logPosition⟩]⟩
      | .ok prepInp => emitPreprocessed transform filePath logPosition prepInp
    else ⟨[], [⟨filePath, logPosition⟩]⟩

/-- Embeds the kontext018 `InputRecord` fields read by `GetTime` and
`IsProcessable` (src/unnamed part 003): the raw `Date` string and the
private `isProcessable` flag. -/
structure K18InputRecord where
  date : String
  isProcessable : Bool
  deriving DecidableEq, Repr

def K18InputRecord.IsProcessable (rec : K18InputRecord) : Bool :=
  rec.isProcessable

/-- Embeds kontext018 `InputRecord.GetTime` (src/unnamed part 003 lines
86-94). Time values are abstracted as `Int`, the Go zero time value as 0.
The servicelog datetime converters (code not under src/) are parameters:
`convMillisNoTZ` is `servicelog.ConvertDatetimeStringWithMillisNoTZ`,
`convMillis` is `servicelog.ConvertDatetimeStringWithMillis`. The Go index
`rec.Date[len(rec.Date)-1]` is `rec.date.back` (reached only in the
processable branch). -/
def K18InputRecord.GetTime (convMillisNoTZ convMillis : String → Int)
    (rec : K18InputRecord) : Int :=
  if rec.isProcessable then
    if rec.date.back = 'Z' then convMillisNoTZ (rec.date.dropRight 1 ++ "000")
    else convMillis rec.date
  else 0

/-- The source's acceptance disjunction, read ordered-rule by ordered-rule,
computes the same stored value as the spec's 5 rules. -/
theorem reconcileStep_eq_specReconcile (curr cand : LogRange) :
    reconcileStep curr cand = specReconcile curr cand := by
  rcases curr with ⟨ci, cs, ce, cw⟩
  rcases cand with ⟨di, ds, de, dw⟩
  simp only [reconcileStep, specReconcile, acceptUpdate]
  cases cw <;> cases dw <;> simp <;> split_ifs <;> simp_all

/-- Processing one request against an existing entry stores exactly the
value the spec's rules predict. -/
theorem applyUpdate_entry (led : Ledger) (p : String) (r c : LogRange)
    (h : led p = some r) :
    (applyUpdate led ⟨p, c⟩) p = some (specReconcile r c) := by
  have hg : ledgerGet led p = r := by simp [ledgerGet, h]
  rw [← reconcileStep_eq_specReconcile]
  by_cases ha : acceptUpdate r c
  · simp [applyUpdate, hg, ha, reconcileStep]
  · simp [applyUpdate, hg, ha, reconcileStep, h]

/-- C1: for every ledger entry and every finite sequence of update
requests applied to it in arrival order, the final stored FileRange equals
the one predicted by applying the 5 ordered reconciliation rules of spec
§4.1 in arrival order. -/
theorem worklog_updates_follow_spec_rules (led : Ledger) (p : String) (r : LogRange)
    (cands : List LogRange) (h : led p = some r) :
    Worklog.GetData (applyUpdates led (cands.map (fun c => ⟨p, c⟩))) p =
      cands.foldl specReconcile r := by
  induction cands generalizing led r with
  | nil => simp [applyUpdates, Worklog.GetData, h]
  | cons c cs ih =>
    simp only [List.map_cons, applyUpdates, List.foldl_cons] at *
    exact ih (applyUpdate led ⟨p, c⟩) (specReconcile r c) (applyUpdate_entry led p r c h)

/-- C1 witness: a concrete entry and a concrete request sequence. -/
theorem worklog_updates_follow_spec_rules_witness :
    Worklog.GetData (applyUpdates (fun q => if q = "a.log" then some ⟨1, 0, 0, true⟩ else none)
      (([⟨1, 0, 100, false⟩, ⟨1, 0, 50, true⟩, ⟨2, 5, 9, true⟩] : List LogRange).map
        (fun c => ⟨"a.log", c⟩))) "a.log" =
      ([⟨1, 0, 100, false⟩, ⟨1, 0, 50, true⟩, ⟨2, 5, 9, true⟩] : List LogRange).foldl
        specReconcile ⟨1, 0, 0, true⟩ :=
  worklog_updates_follow_spec_rules _ "a.log" ⟨1, 0, 0, true⟩ _ (by simp)

/-- C2: replaying the same confirmed FileRange update twice in a row for
the same path leaves the ledger entry for that path unchanged, and the
reconciliation step is idempotent on a confirmed value. -/
theorem confirmed_replay_idempotent (led : Ledger) (p : String) (r : LogRange)
    (h : r.written = true) :
    Worklog.GetData (applyUpdate (applyUpdate led ⟨p, r⟩) ⟨p, r⟩) p =
      Worklog.GetData (applyUpdate led ⟨p, r⟩) p ∧
    reconcileStep r r = r := by
  have hrr : reconcileStep r r = r := by simp [reconcileStep, acceptUpdate, h]
  refine ⟨?_, hrr⟩
  by_cases ha : acceptUpdate (ledgerGet led p) r
  · have h1 : (applyUpdate led ⟨p, r⟩) p = some r := by simp [applyUpdate, ha]
    have h2 : (applyUpdate (applyUpdate led ⟨p, r⟩) ⟨p, r⟩) p = some (specReconcile r r) :=
      applyUpdate_entry _ p r r h1
    rw [← reconcileStep_eq_specReconcile, hrr] at h2
    simp [Worklog.GetData, h1, h2]
  · simp [applyUpdate, ha]

/-- C2 witness: a concrete confirmed range replayed twice. -/
theorem confirmed_replay_idempotent_witness :
    Worklog.GetData (applyUpdate (applyUpdate (fun _ => none) ⟨"a.log", ⟨3, 0, 40, true⟩⟩)
        ⟨"a.log", ⟨3, 0, 40, true⟩⟩) "a.log" =
      Worklog.GetData (applyUpdate (fun _ => none) ⟨"a.log", ⟨3, 0, 40, true⟩⟩) "a.log" ∧
    reconcileStep ⟨3, 0, 40, true⟩ ⟨3, 0, 40, true⟩ = ⟨3, 0, 40, true⟩ :=
  confirmed_replay_idempotent (fun _ => none) "a.log" ⟨3, 0, 40, true⟩ rfl

/-- C3: from a path with no prior ledger entry and a fixed identity, the
updates unconfirmed [0,100), confirmed [0,50), confirmed [0,100) leave a
final stored state of confirmed [0,100). -/
theorem scenario_out_of_order_confirmations (led : Ledger) (p : String) (id : Int)
    (h : led p = none) :
    Worklog.GetData (applyUpdates led
      [⟨p, ⟨id, 0, 100, false⟩⟩, ⟨p, ⟨id, 0, 50, true⟩⟩, ⟨p, ⟨id, 0, 100, true⟩⟩]) p =
      ⟨id, 0, 100, true⟩ := by
  have hg : ledgerGet led p = LogRange.zero := by simp [ledgerGet, h]
  have h1 : (applyUpdate led ⟨p, ⟨id, 0, 100, false⟩⟩) p = some ⟨id, 0, 100, false⟩ := by
    have ha : acceptUpdate (ledgerGet led p) ⟨id, 0, 100, false⟩ = true := by
      simp [hg, acceptUpdate, LogRange.zero]
    simp [applyUpdate, ha]
  have h2 : (applyUpdate (applyUpdate led ⟨p, ⟨id, 0, 100, false⟩⟩) ⟨p, ⟨id, 0, 50, true⟩⟩) p =
      some ⟨id, 0, 50, true⟩ := by
    have hs := applyUpdate_entry (applyUpdate led ⟨p, ⟨id, 0, 100, false⟩⟩) p
      ⟨id, 0, 100, false⟩ ⟨id, 0, 50, true⟩ h1
    simpa [specReconcile] using hs
  have h3 : (applyUpdate (applyUpdate (applyUpdate led ⟨p, ⟨id, 0, 100, false⟩⟩)
      ⟨p, ⟨id, 0, 50, true⟩⟩) ⟨p, ⟨id, 0, 100, true⟩⟩) p = some ⟨id, 0, 100, true⟩ := by
    have hs := applyUpdate_entry _ p ⟨id, 0, 50, true⟩ ⟨id, 0, 100, true⟩ h2
    simpa [specReconcile] using hs
  simp [applyUpdates, Worklog.GetData, h3]

/-- C3 witness: the scenario at a concrete path and identity. -/
theorem scenario_out_of_order_confirmations_witness :
    Worklog.GetData (applyUpdates (fun _ => none)
      [⟨"q.log", ⟨7, 0, 100, false⟩⟩, ⟨"q.log", ⟨7, 0, 50, true⟩⟩,
        ⟨"q.log", ⟨7, 0, 100, true⟩⟩]) "q.log" = ⟨7, 0, 100, true⟩ :=
  scenario_out_of_order_confirmations (fun _ => none) "q.log" 7 rfl

/-- C4 counterexample: a path whose prior entry is confirmed [0,10) under
identity 5, with the stat returning the same identity 5, keeps its old
entry after the reset request is reconciled — the zero-range candidate is
discarded by the acceptance rules (no rule fires: identities match, the
current entry is confirmed, and the candidate's seekEnd 0 is behind the
confirmed seekEnd 10 while the candidate is itself confirmed). -/
theorem resetFile_not_always_fresh :
    Worklog.GetData (applyUpdates (fun q => if q = "app.log" then some ⟨5, 0, 10, true⟩ else none)
      (Worklog.ResetFile "app.log" (.ok 5)).enqueued) "app.log" ≠ ⟨5, 0, 0, true⟩ ∧
    (Worklog.ResetFile "app.log" (.ok 5)).ret = 5 ∧
    Worklog.GetData (applyUpdates (fun q => if q = "app.log" then some ⟨5, 0, 10, true⟩ else none)
      (Worklog.ResetFile "app.log" (.ok 5)).enqueued) "app.log" = ⟨5, 0, 10, true⟩ := by
  refine ⟨?_, rfl, ?_⟩ <;> decide

/-- C4 (amended): for every path whose stat succeeds, ResetFile returns
the stat's identity and enqueues the confirmed zero range; when the
current ledger value's identity differs from the stat identity (in
particular for a prior entry with identity 5 and a different stat
identity), the reconciled entry is {identity, 0, 0, confirmed}. -/
theorem resetFile_refreshes_on_identity_change (led : Ledger) (p : String) (statInode : Int)
    (h : (ledgerGet led p).inode ≠ statInode) :
    (Worklog.ResetFile p (.ok statInode)).ret = statInode ∧
    (Worklog.ResetFile p (.ok statInode)).err = none ∧
    Worklog.GetData (applyUpdates led (Worklog.ResetFile p (.ok statInode)).enqueued) p =
      ⟨statInode, 0, 0, true⟩ := by
  refine ⟨rfl, rfl, ?_⟩
  have ha : acceptUpdate (ledgerGet led p) ⟨statInode, 0, 0, true⟩ = true := by
    simp [acceptUpdate, h]
  simp [Worklog.ResetFile, applyUpdates, applyUpdate, ha, Worklog.GetData]

/-- C4 witness: prior entry with identity 5, stat identity 8. -/
theorem resetFile_refreshes_on_identity_change_witness :
    (Worklog.ResetFile "app.log" (.ok 8)).ret = 8 ∧
    (Worklog.ResetFile "app.log" (.ok 8)).err = none ∧
    Worklog.GetData (applyUpdates (fun q => if q = "app.log" then some ⟨5, 2, 9, true⟩ else none)
      (Worklog.ResetFile "app.log" (.ok 8)).enqueued) "app.log" = ⟨8, 0, 0, true⟩ :=
  resetFile_refreshes_on_identity_change
    (fun q => if q = "app.log" then some ⟨5, 2, 9, true⟩ else none) "app.log" 8 (by decide)

/-- C5: GetData returns the sentinel {identity: -1, seekStart: 0,
seekEnd: 0} for a path never recorded, and the stored FileRange exactly
for a recorded path. -/
theorem getData_contract (led : Ledger) (p : String) :
    (led p = none → Worklog.GetData led p = ⟨-1, 0, 0, false⟩) ∧
    (∀ r, led p = some r → Worklog.GetData led p = r) := by
  constructor
  · intro h
    simp [Worklog.GetData, h]
  · intro r h
    simp [Worklog.GetData, h]

/-- C5 witness: one recorded and one unrecorded path in a concrete ledger. -/
theorem getData_contract_witness :
    Worklog.GetData (fun q => if q = "a.log" then some ⟨4, 1, 2, true⟩ else none) "b.log" =
      ⟨-1, 0, 0, false⟩ ∧
    Worklog.GetData (fun q => if q = "a.log" then some ⟨4, 1, 2, true⟩ else none) "a.log" =
      ⟨4, 1, 2, true⟩ :=
  ⟨(getData_contract (fun q => if q = "a.log" then some ⟨4, 1, 2, true⟩ else none) "b.log").1
      (by decide),
    (getData_contract (fun q => if q = "a.log" then some ⟨4, 1, 2, true⟩ else none) "a.log").2
      ⟨4, 1, 2, true⟩ (by decide)⟩

/-- C6: with an existing primary store file, save's operation sequence
truncates the backup, copies the whole primary content into it, and only
then truncates and rewrites the primary: after the first two operations
the backup holds the full old primary content and the primary is untouched,
and the final state is the new primary beside the old content's backup.
With no primary, no backup operation appears and the backup is unchanged. -/
theorem save_backup_then_overwrite (fs : FsState) (data c : String) :
    (fs.primary = some c →
      Worklog.saveOps fs.primary.isSome data =
        [.openTrunc .backup, .copyTo .backup .primary, .openTrunc .primary,
          .writeData .primary data] ∧
      fs.run [.openTrunc .backup, .copyTo .backup .primary] = ⟨some c, some c⟩ ∧
      Worklog.save fs data = ⟨some data, some c⟩) ∧
    (fs.primary = none →
      Worklog.saveOps fs.primary.isSome data =
        [.openTrunc .primary, .writeData .primary data] ∧
      Worklog.save fs data = ⟨some data, fs.backup⟩) := by
  rcases fs with ⟨pr, bk⟩
  constructor
  · intro h
    simp only at h
    subst h
    refine ⟨by simp [Worklog.saveOps], ?_, ?_⟩
    · simp [FsState.run, FsState.applyOp, FsState.put, FsState.read]
    · simp [Worklog.save, Worklog.saveOps, FsState.run, FsState.applyOp,
        FsState.put, FsState.read]
  · intro h
    simp only at h
    subst h
    refine ⟨by simp [Worklog.saveOps], ?_⟩
    simp [Worklog.save, Worklog.saveOps, FsState.run, FsState.applyOp,
      FsState.put, FsState.read]

/-- C6 witness: a concrete filesystem with and without a primary file. -/
theorem save_backup_then_overwrite_witness :
    (Worklog.saveOps (FsState.mk (some "old") (some "stale")).primary.isSome "new" =
        [.openTrunc .backup, .copyTo .backup .primary, .openTrunc .primary,
          .writeData .primary "new"] ∧
      (FsState.mk (some "old") (some "stale")).run
          [.openTrunc .backup, .copyTo .backup .primary] = ⟨some "old", some "old"⟩ ∧
      Worklog.save (FsState.mk (some "old") (some "stale")) "new" =
        ⟨some "new", some "old"⟩) ∧
    (Worklog.saveOps (FsState.mk none (some "stale")).primary.isSome "new" =
        [.openTrunc .primary, .writeData .primary "new"] ∧
      Worklog.save (FsState.mk none (some "stale")) "new" = ⟨some "new", some "stale"⟩) :=
  ⟨(save_backup_then_overwrite (FsState.mk (some "old") (some "stale")) "new" "old").1 rfl,
    (save_backup_then_overwrite (FsState.mk none (some "stale")) "new" "old").2 rfl⟩

/-- A successful Init leaves the initialized flag set. -/
theorem init_ok_initialized (w : Worklog) (fs : FsView) (w2 : Worklog)
    (h : w.Init fs = .ok w2) : w2.initialized = true := by
  unfold Worklog.Init at h
  repeat' split at h
  all_goals first
    | exact InitResult.noConfusion h
    | (injection h with h2; rw [← h2])

/-- C9: calling Init again on an instance whose Init already succeeded
(no intervening Close) panics with "Worklog already initialized"; after
Close resets the flag, Init does not panic (it returns an error or
succeeds). -/
theorem init_twice_panics (w : Worklog) (fs fs2 : FsView) (w2 : Worklog)
    (h : w.Init fs = .ok w2) :
    w2.Init fs2 = .panicked "Worklog already initialized" ∧
    ∀ msg, (w2.Close).Init fs2 ≠ .panicked msg := by
  have hinit : w2.initialized = true := init_ok_initialized w fs w2 h
  constructor
  · unfold Worklog.Init
    simp [hinit]
  · intro msg
    have hc : (w2.Close).initialized = false := rfl
    unfold Worklog.Init
    rw [hc]
    simp only [Bool.false_eq_true, if_false]
    repeat' split
    all_goals simp

/-- C9 witness: a concrete worklog initialized against a filesystem with
no existing store file. -/
theorem init_twice_panics_witness :
    Worklog.Init ⟨"wl.json", true, fun _ => none⟩
        ⟨.ok false, .ok "", .ok (fun _ => none)⟩ =
      .panicked "Worklog already initialized" ∧
    Worklog.Init (Worklog.Close ⟨"wl.json", true, fun _ => none⟩)
        ⟨.ok false, .ok "", .ok (fun _ => none)⟩ ≠
      .panicked "Worklog already initialized" :=
  ⟨(init_twice_panics ⟨"wl.json", false, fun _ => none⟩
      ⟨.ok false, .ok "", .ok (fun _ => none)⟩ ⟨.ok false, .ok "", .ok (fun _ => none)⟩
      ⟨"wl.json", true, fun _ => none⟩ rfl).1,
    (init_twice_panics ⟨"wl.json", false, fun _ => none⟩
      ⟨.ok false, .ok "", .ok (fun _ => none)⟩ ⟨.ok false, .ok "", .ok (fun _ => none)⟩
      ⟨"wl.json", true, fun _ => none⟩ rfl).2 "Worklog already initialized"⟩

/-- C7: mapka3 Preprocess returns the singleton [rec] and leaves the
buffer untouched when the interval has not elapsed, when no records are
retained for the key, or when the analysis finds no clusters; when
clusters are found it evicts the analyzed records, stamps the last-check
marker, and returns the cluster representatives. -/
theorem mapka3_preprocess_cases (analyze : List PRec → List PRec) (iv : Int)
    (buf : LogBuffer) (rec : PRec) :
    (rec.time - buf.lastCheck rec.clusteringID ≤ iv →
      Mapka3.Preprocess analyze iv buf rec = ([rec], buf)) ∧
    (rec.time - buf.lastCheck rec.clusteringID > iv →
      buf.retained rec.clusteringID = [] →
      Mapka3.Preprocess analyze iv buf rec = ([rec], buf)) ∧
    (rec.time - buf.lastCheck rec.clusteringID > iv →
      analyze (buf.retained rec.clusteringID) = [] →
      Mapka3.Preprocess analyze iv buf rec = ([rec], buf)) ∧
    (rec.time - buf.lastCheck rec.clusteringID > iv →
      buf.retained rec.clusteringID ≠ [] →
      analyze (buf.retained rec.clusteringID) ≠ [] →
      Mapka3.Preprocess analyze iv buf rec =
        (analyze (buf.retained rec.clusteringID),
          (buf.removeAnalyzedRecords rec.clusteringID rec.time).confirmRecordCheck rec)) := by
  refine ⟨?_, ?_, ?_, ?_⟩
  · intro h
    simp only [Mapka3.Preprocess]
    rw [if_neg (by omega)]
  · intro h h2
    simp only [Mapka3.Preprocess]
    rw [if_pos (by omega)]
    simp [h2]
  · intro h h2
    simp only [Mapka3.Preprocess]
    rw [if_pos (by omega)]
    by_cases h3 : buf.retained rec.clusteringID = []
    · simp [h3]
    · simp [h2, List.length_pos.mpr h3]
  · intro h h2 h3
    simp only [Mapka3.Preprocess]
    rw [if_pos (by omega)]
    simp [List.length_pos.mpr h2, List.length_pos.mpr h3]

/-- C7 witness: a too-recent check passes the record through; an elapsed
interval with a nonempty window and nonempty clustering output rewrites
it and evicts. -/
theorem mapka3_preprocess_cases_witness :
    Mapka3.Preprocess (fun xs => xs) 10
        ⟨fun _ => 0, fun k => if k = "k" then [⟨50, "k"⟩] else []⟩ ⟨5, "k"⟩ =
      ([⟨5, "k"⟩], ⟨fun _ => 0, fun k => if k = "k" then [⟨50, "k"⟩] else []⟩) ∧
    Mapka3.Preprocess (fun xs => xs) 10
        ⟨fun _ => 0, fun k => if k = "k" then [⟨50, "k"⟩] else []⟩ ⟨100, "k"⟩ =
      ([⟨50, "k"⟩],
        ((LogBuffer.mk (fun _ => 0) (fun k => if k = "k" then [⟨50, "k"⟩] else
            [])).removeAnalyzedRecords "k" 100).confirmRecordCheck ⟨100, "k"⟩) := by
  constructor
  · exact (mapka3_preprocess_cases (fun xs => xs) 10
      ⟨fun _ => 0, fun k => if k = "k" then [⟨50, "k"⟩] else []⟩ ⟨5, "k"⟩).1 (by norm_num)
  · have h4 := (mapka3_preprocess_cases (fun xs => xs) 10
      ⟨fun _ => 0, fun k => if k = "k" then [⟨50, "k"⟩] else []⟩ ⟨100, "k"⟩).2.2.2
    simpa using h4 (by norm_num) (by simp) (by simp)

/-- The transform loop on a record list whose first failure is `bad`:
every record before it yields its bound output, the failure emits exactly
one ignored message and abandons the rest. -/
theorem emitPreprocessed_error_cut (transform : Nat → Except String Nat) (out : Nat → Nat)
    (fp : String) (pos : LogRange) (done : List Nat) (bad : Nat) (rest : List Nat) (e : String)
    (hok : ∀ r ∈ done, transform r = .ok (out r)) (hbad : transform bad = .error e) :
    emitPreprocessed transform fp pos (done ++ bad :: rest) =
      ⟨done.map (fun r => ⟨fp, out r, pos⟩), [⟨fp, pos⟩]⟩ := by
  induction done with
  | nil => simp [emitPreprocessed, hbad]
  | cons d ds ih =>
    have ih2 := ih (fun r hr => hok r (by simp [hr]))
    simp only [List.cons_append, emitPreprocessed, hok d (by simp), List.append_eq] at *
    rw [ih2]
    simp

/-- C8 counterexample: parse succeeds into a processable record,
Preprocess expands it into records 1 and 2, Transform succeeds on 1 and
fails on 2: the line emits the single ignored message but ALSO an output
record, so "emits no output record for the line" fails for a
Transform-step failure. -/
theorem onEntry_emits_output_despite_transform_error :
    OnEntry (fun _ => .ok 0) (fun _ => true) (fun _ => .ok [1, 2])
        (fun r => if r = 1 then .ok 10 else .error "transform failed")
        "k.log" "line" ⟨1, 0, 5, true⟩ =
      ⟨[⟨"k.log", 10, ⟨1, 0, 5, true⟩⟩], [⟨"k.log", ⟨1, 0, 5, true⟩⟩]⟩ ∧
    (OnEntry (fun _ => .ok 0) (fun _ => true) (fun _ => .ok [1, 2])
        (fun r => if r = 1 then .ok 10 else .error "transform failed")
        "k.log" "line" ⟨1, 0, 5, true⟩).elastic ≠ [] ∧
    (fun r => if r = 1 then .ok 10 else (.error "transform failed" : Except String Nat)) 2 =
      .error "transform failed" :=
  ⟨by decide, by decide, rfl⟩

/-- C8 (amended): a parse error, a Preprocess error, and a Transform
error each emit exactly one ignored message with the file path and byte
range, and OnEntry returns normally; for a parse or Preprocess error no
output record is emitted, while a Transform error on a later preprocessed
record leaves the outputs already emitted for the earlier records of the
same line on the Elastic channel and abandons the rest. -/
theorem onEntry_failure_handling
    (parseLine : String → Except String Nat) (isProcessable : Nat → Bool)
    (preprocess : Nat → Except String (List Nat)) (transform : Nat → Except String Nat)
    (filePath item : String) (pos : LogRange) :
    (∀ e, parseLine item = .error e →
      OnEntry parseLine isProcessable preprocess transform filePath item pos =
        ⟨[], [⟨filePath, pos⟩]⟩) ∧
    (∀ (parsed : Nat) (e : String), parseLine item = .ok parsed →
      isProcessable parsed = true → preprocess parsed = .error e →
      OnEntry parseLine isProcessable preprocess transform filePath item pos =
        ⟨[], [⟨filePath, pos⟩]⟩) ∧
    (∀ (parsed : Nat) (out : Nat → Nat) (done : List Nat) (bad : Nat) (rest : List Nat)
      (e : String), parseLine item = .ok parsed →
      isProcessable parsed = true → preprocess parsed = .ok (done ++ bad :: rest) →
      (∀ r ∈ done, transform r = .ok (out r)) → transform bad = .error e →
      OnEntry parseLine isProcessable preprocess transform filePath item pos =
        ⟨done.map (fun r => ⟨filePath, out r, pos⟩), [⟨filePath, pos⟩]⟩) := by
  refine ⟨?_, ?_, ?_⟩
  · intro e he
    simp [OnEntry, he]
  · intro parsed e hp hproc hpre
    simp [OnEntry, hp, hproc, hpre]
  · intro parsed out done bad rest e hp hproc hpre hok hbad
    simp only [OnEntry, hp, hproc, if_true, hpre]
    exact emitPreprocessed_error_cut transform out filePath pos done bad rest e hok hbad

/-- C8 witness: the three failure kinds at concrete inputs. -/
theorem onEntry_failure_handling_witness :
    OnEntry (fun _ => .error "bad line") (fun _ => true) (fun r => .ok [r])
        (fun r => .ok r) "k.log" "line" ⟨1, 0, 5, true⟩ =
      ⟨[], [⟨"k.log", ⟨1, 0, 5, true⟩⟩]⟩ ∧
    OnEntry (fun _ => .ok 0) (fun _ => true) (fun _ => .error "preprocess failed")
        (fun r => .ok r) "k.log" "line" ⟨1, 0, 5, true⟩ =
      ⟨[], [⟨"k.log", ⟨1, 0, 5, true⟩⟩]⟩ ∧
    OnEntry (fun _ => .ok 0) (fun _ => true) (fun _ => .ok [1, 2])
        (fun r => if r = 1 then .ok (r + 9) else .error "transform failed")
        "k.log" "line" ⟨1, 0, 5, true⟩ =
      ⟨[1].map (fun r => ⟨"k.log", r + 9, ⟨1, 0, 5, true⟩⟩), [⟨"k.log", ⟨1, 0, 5, true⟩⟩]⟩ := by
  refine ⟨?_, ?_, ?_⟩
  · exact (onEntry_failure_handling (fun _ => .error "bad line") (fun _ => true)
      (fun r => .ok [r]) (fun r => .ok r) "k.log" "line" ⟨1, 0, 5, true⟩).1 "bad line" rfl
  · exact (onEntry_failure_handling (fun _ => .ok 0) (fun _ => true)
      (fun _ => .error "preprocess failed") (fun r => .ok r) "k.log" "line"
      ⟨1, 0, 5, true⟩).2.1 0 "preprocess failed" rfl rfl rfl
  · exact (onEntry_failure_handling (fun _ => .ok 0) (fun _ => true) (fun _ => .ok [1, 2])
      (fun r => if r = 1 then .ok (r + 9) else .error "transform failed") "k.log" "line"
      ⟨1, 0, 5, true⟩).2.2 0 (fun r => r + 9) [1] 2 [] "transform failed" rfl rfl rfl
      (by intro r hr; simp at hr; subst hr; rfl) rfl

/-- C10: a kontext018 record whose IsProcessable is false gets the zero
time value from GetTime, whatever the datetime converters would return —
the Date string is never parsed. -/
theorem kontext018_unprocessable_zero_time (convMillisNoTZ convMillis : String → Int)
    (rec : K18InputRecord) (h : rec.IsProcessable = false) :
    rec.GetTime convMillisNoTZ convMillis = 0 := by
  have h2 : rec.isProcessable = false := h
  simp [K18InputRecord.GetTime, h2]

/-- C10 witness: an unprocessable record with a well-formed Date and
converters that would return nonzero times. -/
theorem kontext018_unprocessable_zero_time_witness :
    K18InputRecord.IsProcessable ⟨"2024-01-01T00:00:00.000Z", false⟩ = false ∧
    K18InputRecord.GetTime (fun _ => 99) (fun _ => 77)
      ⟨"2024-01-01T00:00:00.000Z", false⟩ = 0 :=
  ⟨rfl, kontext018_unprocessable_zero_time (fun _ => 99) (fun _ => 77)
    ⟨"2024-01-01T00:00:00.000Z", false⟩ rfl⟩
